import Mathlib

/-!
Shallow embedding of the manual-edit reconciliation engine of the
ShiftORTools duty-roster frontend (`src/frontend/app.js`): capacity
arithmetic, candidate computation, the assign/unassign/move handlers, the
per-month schedule cache, and the undo change log, together with theorems
checking the specification's claims against this embedding.
-/

namespace ShiftORTools

/-- A Gregorian civil date, as denoted by the client's ISO `YYYY-MM-DD`
    strings. -/
structure Date where
  year : Nat
  month : Nat
  day : Nat
deriving DecidableEq, Repr

/-- Month-offset table of Sakamoto's day-of-week algorithm. -/
def sakamotoOffsets : List Nat := [0, 3, 2, 5, 0, 3, 5, 1, 4, 6, 2, 4]

/-- JavaScript `new Date(iso).getDay()`: the Sunday-first day of week
    (0 = Sunday .. 6 = Saturday) of a Gregorian civil date, computed with
    Sakamoto's algorithm.  (The client runs in a UTC+9 locale, so the local
    day equals the civil day of the ISO string.) -/
def jsDay (d : Date) : Nat :=
  let y := if d.month < 3 then d.year - 1 else d.year
  (y + y / 4 - y / 100 + y / 400 + sakamotoOffsets.getD (d.month - 1) 0 + d.day) % 7

/-- `String(n).padStart(2,'0')`. -/
def pad2 (n : Nat) : String :=
  if n < 10 then "0" ++ toString n else toString n

/-- The template string used throughout app.js for a day cell:
    `${year}-${String(month).padStart(2,'0')}-${String(d).padStart(2,'0')}`. -/
def Date.iso (d : Date) : String :=
  toString d.year ++ "-" ++ pad2 d.month ++ "-" ++ pad2 d.day

/-- `${year}-${String(month).padStart(2,'0')}` — the month cache key. -/
def Date.monthKey (d : Date) : String :=
  toString d.year ++ "-" ++ pad2 d.month

/-- `dt.getDay() === 0 || dt.getDay() === 6` (app.js 346, 706, 805, 888). -/
def isWeekend (d : Date) : Bool :=
  jsDay d == 0 || jsDay d == 6

/-- The special-cased university hospital name compared literally at
    app.js 347, 707, 806 and 889. -/
def universityHospital : String := "大学病院"

/-- One hospital's configuration: key → capacity, where a key is either an
    ISO date (date-specific override) or a Monday-first weekday digit
    `"0"`..`"6"`.  (`currentCfg[h]` in app.js.) -/
abbrev HospitalCfg := List (String × Int)

/-- `currentCfg`: hospital name → per-hospital configuration. -/
abbrev Config := List (String × HospitalCfg)

/-- `const cfg = currentCfg[hosp] || {}`. -/
def cfgOf (config : Config) (hosp : String) : HospitalCfg :=
  (List.lookup hosp config).getD []

/-- The capacity computation repeated verbatim at app.js 333-343, 690-700,
    798-801 and 872-882: the date-specific entry if present, else the entry
    under the weekday key `String((getDay() + 6) % 7)`, else 0.
    (`Number(v) || 0` is the identity on the numeric entries modelled here
    and is dropped.) -/
def capacityOf (config : Config) (hosp : String) (d : Date) : Int :=
  let cfg := cfgOf config hosp
  match List.lookup d.iso cfg with
  | some v => v
  | none =>
    match List.lookup (toString ((jsDay d + 6) % 7)) cfg with
    | some v => v
    | none => 0

/-- A cached month snapshot as the client stores it in `scheduleCache`:
    schedule JSON from the backend (any field may be absent) or the
    `{status:'error'}` sentinel written by `fetchSchedule` on failure. -/
structure JsSched where
  hospitals : Option (List String) := none
  assignments : Option (List (String × List (String × List String))) := none
  per_res_counts : Option (List (String × Int)) := none
  statusError : Bool := false
deriving DecidableEq, Repr

/-- The `{status:'error'}` sentinel cached at app.js 517 and 525. -/
def errorSentinel : JsSched := { statusError := true }

/-- The `{}` fallback of `scheduleCache[month] || {}`. -/
def emptyJs : JsSched := {}

/-- `(sched.assignments && sched.assignments[date] && sched.assignments[date][h]) || []`
    (app.js 344, 701, 803, 884). -/
def jsAssigned (sched : JsSched) (dateIso hosp : String) : List String :=
  match sched.assignments with
  | none => []
  | some asg => (List.lookup hosp ((List.lookup dateIso asg).getD [])).getD []

/-- The remaining-slot computation of the assign dialog
    (app.js 872-892): configured capacity, plus 4 for the university
    hospital on a weekend or holiday, minus the assigned count. -/
def assignModalRemaining (config : Config) (sched : JsSched) (hosp : String)
    (d : Date) (isHoliday : Bool) : Int :=
  let capacity := capacityOf config hosp d
  let assignedCount : Int := (jsAssigned sched d.iso hosp).length
  let capacity :=
    if hosp = universityHospital ∧ (isWeekend d || isHoliday) = true then capacity + 4
    else capacity
  capacity - assignedCount

/-- The remaining-slot computation of the calendar (date-only) drop handler
    (app.js 332-348); textually the same arithmetic as the assign dialog's. -/
def calDropRemaining (config : Config) (sched : JsSched) (hosp : String)
    (d : Date) (isHoliday : Bool) : Int :=
  let capacity := capacityOf config hosp d
  let assignedCount : Int := (jsAssigned sched d.iso hosp).length
  let capacity :=
    if hosp = universityHospital ∧ (isWeekend d || isHoliday) = true then capacity + 4
    else capacity
  capacity - assignedCount

/-- The remaining-slot computation of the preview-table highlight
    (app.js 796-808).  Line 806 tests `(isWeekend || false)`: the holiday
    flag is never consulted at this site. -/
def highlightRemaining (config : Config) (sched : JsSched) (hosp : String)
    (d : Date) : Int :=
  let capacity := capacityOf config hosp d
  let assignedCount : Int := (jsAssigned sched d.iso hosp).length
  let capacity :=
    if hosp = universityHospital ∧ (isWeekend d || false) = true then capacity + 4
    else capacity
  capacity - assignedCount

/-- Modelled from the spec: `remaining(h,d) = capacityOf(h,d)
    [+4 if h is the university hospital and d is weekend/holiday]
    - assignedCount(h,d)`. -/
def specRemaining (config : Config) (sched : JsSched) (hosp : String)
    (d : Date) (isHoliday : Bool) : Int :=
  capacityOf config hosp d
    + (if hosp = universityHospital ∧ (isWeekend d || isHoliday) = true then 4 else 0)
    - (jsAssigned sched d.iso hosp).length

/-- Candidate loop of the assign dialog (app.js 868-894): skips falsy
    hospital names and includes a hospital exactly when `remaining > 0`. -/
def assignModalCandidates (config : Config) (sched : JsSched) (d : Date)
    (isHoliday : Bool) : List String → List (String × Int)
  | [] => []
  | hosp :: rest =>
    if hosp = "" then assignModalCandidates config sched d isHoliday rest
    else
      let remaining := assignModalRemaining config sched hosp d isHoliday
      if remaining > 0 then
        (hosp, remaining) :: assignModalCandidates config sched d isHoliday rest
      else assignModalCandidates config sched d isHoliday rest

/-- Candidate loop of the calendar drop handler (app.js 331-352): includes a
    hospital when `remaining > 0` or the dragged resident already occupies
    that (date, hospital) slot. -/
def calendarCandidates (config : Config) (sched : JsSched) (d : Date)
    (resident : String) (isHoliday : Bool) : List String → List (String × Int)
  | [] => []
  | hosp :: rest =>
    let assignedArr := jsAssigned sched d.iso hosp
    let remaining := calDropRemaining config sched hosp d isHoliday
    if remaining > 0 ∨ assignedArr.contains resident = true then
      (hosp, remaining) :: calendarCandidates config sched d resident isHoliday rest
    else calendarCandidates config sched d resident isHoliday rest

/-- `hospitals = sched.hospitals` if that is a non-empty array, else
    `Object.keys(currentCfg)` (app.js 326-328 and 855-857). -/
def hospitalsOf (config : Config) (sched : JsSched) : List String :=
  let hs := (sched.hospitals).getD []
  if hs.isEmpty then config.map (fun p => p.1) else hs

/-- Hospitals the resident currently holds on the date, in key order
    (app.js 897-903, also the loop shape of 52-54). -/
def assignedHospitalsOf (sched : JsSched) (dateIso resident : String) :
    List String :=
  match sched.assignments with
  | none => []
  | some asg =>
    (((List.lookup dateIso asg).getD []).filter
        (fun p => p.2.contains resident)).map (fun p => p.1)

/-- The "resident already assigned on this date" scan of the assign handler
    (app.js 946-952). -/
def occupiesOnDate (sched : JsSched) (dateIso resident : String) : Bool :=
  match sched.assignments with
  | none => false
  | some asg => ((List.lookup dateIso asg).getD []).any (fun p => p.2.contains resident)

/-- `scheduleCache`: month key → cached snapshot (newest binding first). -/
abbrev Cache := List (String × JsSched)

/-- `(scheduleCache[month] && scheduleCache[month].per_res_counts) || {}`,
    then `Number(curCounts[resident] || 0)` (app.js 943-944). -/
def currentTotal (cache : Cache) (month resident : String) : Int :=
  let counts := (((List.lookup month cache).getD emptyJs).per_res_counts).getD []
  (List.lookup resident counts).getD 0

/-- Accumulator loop of the decimal parser behind `jsNumber`. -/
def parseDigitsAux : List Char → Nat → Option Nat
  | [], acc => some acc
  | c :: rest, acc =>
    if c.isDigit then parseDigitsAux rest (acc * 10 + (c.toNat - 48)) else none

/-- JS `Number` restricted to the optional-sign decimal-integer strings an
    `input[type=number]` field yields; `none` models NaN, and `Number("")`
    is 0. -/
def jsNumber (s : String) : Option Int :=
  match s.data with
  | [] => some 0
  | '-' :: rest =>
    if rest = [] then none
    else (parseDigitsAux rest 0).map (fun n => -(n : Int))
  | l => (parseDigitsAux l 0).map (fun n => (n : Int))

/-- `Number(document.getElementById('max-assignments')?.value || 0) || 2`
    (app.js 365, 714, 941).  `none` models an absent element, `some s` the
    field text; `|| 2` replaces both NaN and 0 by 2. -/
def uiMaxAssignments (field : Option String) : Int :=
  match field with
  | none => 2
  | some s =>
    if s = "" then 2
    else
      match jsNumber s with
      | none => 2
      | some n => if n = 0 then 2 else n

/-- `Number(document.getElementById('max-assignments')?.value || 2)` — the
    variant used by the undo handlers (app.js 56, 65).  Here `|| 2` applies
    to the raw string before `Number`, so a field reading `"0"` is sent as
    0.  (A NaN field value is outside this model; the element is numeric.) -/
def uiMaxUndo (field : Option String) : Int :=
  match field with
  | none => 2
  | some s => if s = "" then 2 else (jsNumber s).getD 0

/-- A backend mutation request, as posted to `/api/manual_assign`,
    `/api/manual_unassign` and `/api/manual_move`. -/
inductive Request where
  | assignReq (month date resident hospital : String) (max_assignments : Int)
  | unassignReq (month date resident : String)
  | moveReq (month resident from_date from_hospital to_date to_hospital : String)
      (max_assignments : Int)
deriving DecidableEq, Repr

/-- A backend answer to a mutation request: `none` models `!res.ok` (or a
    thrown fetch); `some r` a 200 response whose `jd.result` is `r`. -/
abbrev Response := Option (Option JsSched)

/-- The backend mutation boundary. -/
abbrev Backend := Request → Response

/-- An entry of the undo stack `lastChanges` (app.js 20, 22-31). -/
inductive Change where
  | assignCh (month date resident hospital : String)
  | unassignCh (month date resident : String) (hospitals : List String)
  | moveCh (month resident from_date from_hospital to_date to_hospital : String)
deriving DecidableEq, Repr

/-- How a mutation handler finished. -/
inductive Outcome where
  | capExceeded
  | backendRejected
  | success
deriving DecidableEq, Repr

/-- Observable result of one mutation handler run. -/
structure HandlerOut where
  cache : Cache
  log : List Change
  reqs : List Request
  outcome : Outcome
deriving DecidableEq, Repr

/-- `scheduleCache[month] = s` (assoc-list overwrite by shadowing). -/
def cacheSet (cache : Cache) (month : String) (s : JsSched) : Cache :=
  (month, s) :: cache

/-- `const jd = await res.json(); if(jd && jd.result) scheduleCache[month] = jd.result`. -/
def applyResult (cache : Cache) (month : String) (r : Option JsSched) : Cache :=
  match r with
  | some s => cacheSet cache month s
  | none => cache

/-- The assign-button click handler inside the assign dialog
    (app.js 938-991): local cap check against the cached counts, then the
    `/api/manual_assign` call; the cache is replaced and the change pushed
    only on a success response. -/
def assignClick (backend : Backend) (field : Option String) (cache : Cache)
    (log : List Change) (month dateIso resident hosp : String) : HandlerOut :=
  let uiMax := uiMaxAssignments field
  let cur := currentTotal cache month resident
  let assignedOnDate := occupiesOnDate ((List.lookup month cache).getD emptyJs) dateIso resident
  if cur - (if assignedOnDate then 1 else 0) + 1 > uiMax then
    ⟨cache, log, [], Outcome.capExceeded⟩
  else
    let req := Request.assignReq month dateIso resident hosp uiMax
    match backend req with
    | none => ⟨cache, log, [req], Outcome.backendRejected⟩
    | some r =>
      ⟨applyResult cache month r,
       log ++ [Change.assignCh month dateIso resident hosp], [req], Outcome.success⟩

/-- The delete-button click handler of the assign dialog (app.js 915-931):
    captures the hospitals held on the date, calls `/api/manual_unassign`,
    and on success replaces the cache and pushes the `unassign` change. -/
def unassignDeleteClick (backend : Backend) (cache : Cache) (log : List Change)
    (month dateIso resident : String) : HandlerOut :=
  let sched := (List.lookup month cache).getD emptyJs
  let assignedHospitals := assignedHospitalsOf sched dateIso resident
  let req := Request.unassignReq month dateIso resident
  match backend req with
  | none => ⟨cache, log, [req], Outcome.backendRejected⟩
  | some r =>
    ⟨applyResult cache month r,
     log ++ [Change.unassignCh month dateIso resident assignedHospitals], [req],
     Outcome.success⟩

/-- The hospital-choice click handler of the calendar drop modal
    (app.js 363-375): posts `/api/manual_move`, and on success replaces the
    cache and pushes the `move` change. -/
def calendarMoveClick (backend : Backend) (field : Option String) (cache : Cache)
    (log : List Change) (monthKey resident fromDate fromHosp targetDate toHosp : String) :
    HandlerOut :=
  let uiMax := uiMaxAssignments field
  let req := Request.moveReq monthKey resident fromDate fromHosp targetDate toHosp uiMax
  match backend req with
  | none => ⟨cache, log, [req], Outcome.backendRejected⟩
  | some r =>
    ⟨applyResult cache monthKey r,
     log ++ [Change.moveCh monthKey resident fromDate fromHosp targetDate toHosp], [req],
     Outcome.success⟩

/-- `fetchSchedule` (app.js 510-528): returns the cached snapshot if one is
    present (the error sentinel included); otherwise fetches, caching either
    the response or the `{status:'error'}` sentinel.  The Bool records
    whether a network fetch was issued. -/
def fetchSchedule (backendFetch : String → Option JsSched) (cache : Cache)
    (month : String) : Cache × JsSched × Bool :=
  match List.lookup month cache with
  | some s => (cache, s, false)
  | none =>
    match backendFetch month with
    | some data => (cacheSet cache month data, data, true)
    | none => (cacheSet cache month errorSentinel, errorSentinel, true)

/-- The drag metadata captured at drag start (app.js 254-258, 648-652). -/
structure DragMeta where
  resident : String
  from_date : String
  from_hospital : String
deriving DecidableEq, Repr

/-- What the calendar-cell drop handler did. -/
inductive CalDropOutcome where
  | ngRejected
  | sameDateRejected
  | noSlots
  | showModal (candidates : List (String × Int))
deriving DecidableEq, Repr

/-- Observable result of the calendar-cell drop handler. -/
structure CalDropOut where
  cache : Cache
  log : List Change
  result : CalDropOutcome
deriving DecidableEq, Repr

/-- The schedule snapshot the calendar drop handler reads after its lazy
    fetch: `if(!scheduleCache[monthKey]) await fetchSchedule(monthKey);
    const sched = scheduleCache[monthKey] || {}` (app.js 324-325). -/
def calDropSched (backendFetch : String → Option JsSched) (cache : Cache)
    (monthKey : String) : JsSched :=
  (List.lookup monthKey (fetchSchedule backendFetch cache monthKey).1).getD emptyJs

/-- The calendar-cell drop handler (app.js 308-353): NG check, same-date
    check (the date alone is compared — the source hospital is ignored),
    lazy schedule fetch, candidate computation, then either a local
    rejection or the hospital-choice modal.  `highlightNg` is the active
    highlight resident's `ng_dates`; `isHoliday` the `/api/is_holiday`
    answer (false when that call fails).  No move request is issued here:
    the move is posted only by `calendarMoveClick` after an explicit
    choice. -/
def calendarDrop (backendFetch : String → Option JsSched) (config : Config)
    (cache : Cache) (log : List Change) (meta : DragMeta) (target : Date)
    (highlightNg : List String) (isHoliday : Bool) : CalDropOut :=
  if highlightNg.contains target.iso then ⟨cache, log, CalDropOutcome.ngRejected⟩
  else if meta.from_date = target.iso then ⟨cache, log, CalDropOutcome.sameDateRejected⟩
  else
    let monthKey := target.monthKey
    let cache1 := (fetchSchedule backendFetch cache monthKey).1
    let sched := (List.lookup monthKey cache1).getD emptyJs
    let candidates :=
      calendarCandidates config sched target meta.resident isHoliday
        (hospitalsOf config sched)
    if candidates = [] then ⟨cache1, log, CalDropOutcome.noSlots⟩
    else ⟨cache1, log, CalDropOutcome.showModal candidates⟩

/-- What the preview-table cell drop handler did. -/
inductive TabDropOutcome where
  | samePlaceRejected
  | ngRejected
  | jsErrorCaught (message : String)
deriving DecidableEq, Repr

/-- Observable result of the preview-table cell drop handler. -/
structure TabDropOut where
  cache : Cache
  log : List Change
  reqs : List Request
  result : TabDropOutcome
deriving DecidableEq, Repr

/-- The preview-table (tabular grid) cell drop handler (app.js 676-723).
    After the same-cell check (line 681) and the NG check (line 686) it
    computes a configured capacity (lines 690-700, no observable effect),
    and then line 701 reads `sched.assignments` — but no `sched` is declared
    in `renderScheduleTable` or any enclosing scope, so the read throws a
    ReferenceError; the catch at line 722 reports it, and the
    `/api/manual_move` request below line 701 is unreachable. -/
def tabularDrop (meta : DragMeta) (d h : String) (ngDates : List String)
    (cache : Cache) (log : List Change) : TabDropOut :=
  if meta.from_date = d ∧ meta.from_hospital = h then
    ⟨cache, log, [], TabDropOutcome.samePlaceRejected⟩
  else if ngDates.contains d then
    ⟨cache, log, [], TabDropOutcome.ngRejected⟩
  else
    ⟨cache, log, [], TabDropOutcome.jsErrorCaught "sched is not defined"⟩

/-- How `undoLastChange` finished. -/
inductive UndoOutcome where
  | nothingToUndo
  | undoFailed
  | undoDone
deriving DecidableEq, Repr

/-- Observable result of the replay loop. -/
structure ReplayOut where
  cache : Cache
  reqs : List Request
  ok : Bool
deriving DecidableEq, Repr

/-- Observable result of `undoLastChange`. -/
structure UndoOut where
  cache : Cache
  log : List Change
  reqs : List Request
  result : UndoOutcome
deriving DecidableEq, Repr

/-- The re-assign loop of `undoLastChange`'s `unassign` branch
    (app.js 55-60): one `/api/manual_assign` per captured hospital, in
    order, stopping at the first non-OK response. -/
def replayAssigns (backend : Backend) (uiMax : Int) (month dateIso resident : String) :
    List String → Cache → ReplayOut
  | [], cache => ⟨cache, [], true⟩
  | h :: rest, cache =>
    let req := Request.assignReq month dateIso resident h uiMax
    match backend req with
    | none => ⟨cache, [req], false⟩
    | some r =>
      let out := replayAssigns backend uiMax month dateIso resident rest (applyResult cache month r)
      ⟨out.cache, req :: out.reqs, out.ok⟩

/-- `undoLastChange` (app.js 40-73): pops the most recent change and issues
    its inverse; a failed inverse is reported but the popped entry is never
    re-pushed. -/
def undoLastChange (backend : Backend) (field : Option String) (cache : Cache)
    (log : List Change) : UndoOut :=
  match log.getLast? with
  | none => ⟨cache, log, [], UndoOutcome.nothingToUndo⟩
  | some ch =>
    let rest := log.dropLast
    match ch with
    | Change.assignCh m d r _ =>
      let req := Request.unassignReq m d r
      match backend req with
      | none => ⟨cache, rest, [req], UndoOutcome.undoFailed⟩
      | some res => ⟨applyResult cache m res, rest, [req], UndoOutcome.undoDone⟩
    | Change.unassignCh m d r hs =>
      let out := replayAssigns backend (uiMaxUndo field) m d r hs cache
      ⟨out.cache, rest, out.reqs, if out.ok then UndoOutcome.undoDone else UndoOutcome.undoFailed⟩
    | Change.moveCh m r fd fh td th =>
      let req := Request.moveReq m r td th fd fh (uiMaxUndo field)
      match backend req with
      | none => ⟨cache, rest, [req], UndoOutcome.undoFailed⟩
      | some res => ⟨applyResult cache m res, rest, [req], UndoOutcome.undoDone⟩

/-- A backend that rejects every mutation (`!res.ok`). -/
def backendNone : Backend := fun _ => none

/-- A backend that accepts every mutation with a result-less body. -/
def backendOkEmpty : Backend := fun _ => some none

/-- A schedule-fetch boundary that always fails. -/
def fetchNone : String → Option JsSched := fun _ => none

/-- A small authoritative snapshot used by the mutation-overwrite witness. -/
def schedW : JsSched := { hospitals := some ["A"] }

/-- A backend that accepts every mutation and returns `schedW`. -/
def backendOkWith : Backend := fun _ => some (some schedW)

/-- Concrete preview-grid scene: resident 佐藤 holds (2026-03-02, A); cell
    (2026-03-03, B) has one configured slot and nobody assigned. -/
def cfgC1 : Config := [("B", [("2026-03-03", 1)])]

def schedC1 : JsSched :=
  { hospitals := some ["A", "B"],
    assignments := some [("2026-03-02", [("A", ["佐藤"])])] }

def cacheC1 : Cache := [("2026-03", schedC1)]

def metaC1 : DragMeta := ⟨"佐藤", "2026-03-02", "A"⟩

/-- Concrete scene for the candidate sets: resident r occupies (2026-03-02, A)
    and A's date-specific capacity is 1, so `remaining = 0` while occupied. -/
def cfgC2 : Config := [("A", [("2026-03-02", 1)])]

def schedC2 : JsSched :=
  { hospitals := some ["A"],
    assignments := some [("2026-03-02", [("A", ["r"])])] }

def dateC2 : Date := ⟨2026, 3, 2⟩

/-- Concrete scene for the holiday bonus: the university hospital with one
    configured slot on 2026-01-01, a Thursday and a holiday. -/
def cfgC3 : Config := [("大学病院", [("2026-01-01", 1)])]

def dateC3 : Date := ⟨2026, 1, 1⟩

/-- Concrete scene for the cap check: resident r already counted twice in
    the month, with no assignment on the target date. -/
def schedC5 : JsSched := { per_res_counts := some [("r", 2)], assignments := some [] }

def cacheC5 : Cache := [("2026-03", schedC5)]

/-- Concrete scene for the local move rejections: resident r holds
    (2026-03-02, A); hospital B has a free slot on the same date. -/
def cfgC6 : Config := [("B", [("2026-03-02", 1)])]

def schedC6 : JsSched :=
  { hospitals := some ["A", "B"],
    assignments := some [("2026-03-02", [("A", ["r"])])] }

def cacheC6 : Cache := [("2026-03", schedC6)]

def metaC6 : DragMeta := ⟨"r", "2026-03-02", "A"⟩

def dateC6 : Date := ⟨2026, 3, 2⟩

theorem memCalendarCandidates (config : Config) (sched : JsSched) (d : Date)
    (resident : String) (hol : Bool) :
    ∀ (hs : List String) (hosp : String) (rem : Int),
      ((hosp, rem) ∈ calendarCandidates config sched d resident hol hs) ↔
        (hosp ∈ hs ∧ rem = calDropRemaining config sched hosp d hol ∧
          (calDropRemaining config sched hosp d hol > 0 ∨
            (jsAssigned sched d.iso hosp).contains resident = true)) := by
  intro hs
  induction hs with
  | nil => intro hosp rem; simp [calendarCandidates]
  | cons h0 rest ih =>
    intro hosp rem
    simp only [calendarCandidates]
    by_cases hcond : calDropRemaining config sched h0 d hol > 0 ∨
        (jsAssigned sched d.iso h0).contains resident = true
    · rw [if_pos hcond]
      constructor
      · intro hmem
        rcases List.mem_cons.mp hmem with heq | hmem2
        · injection heq with e1 e2
          subst e1
          subst e2
          exact ⟨List.mem_cons_self _ _, rfl, hcond⟩
        · obtain ⟨hm, hr, hc⟩ := (ih hosp rem).mp hmem2
          exact ⟨List.mem_cons_of_mem _ hm, hr, hc⟩
      · rintro ⟨hm, hr, hc⟩
        rcases List.mem_cons.mp hm with rfl | hm2
        · subst hr
          exact List.mem_cons_self _ _
        · exact List.mem_cons_of_mem _ ((ih hosp rem).mpr ⟨hm2, hr, hc⟩)
    · rw [if_neg hcond]
      constructor
      · intro hmem
        obtain ⟨hm, hr, hc⟩ := (ih hosp rem).mp hmem
        exact ⟨List.mem_cons_of_mem _ hm, hr, hc⟩
      · rintro ⟨hm, hr, hc⟩
        rcases List.mem_cons.mp hm with rfl | hm2
        · exact absurd hc hcond
        · exact (ih hosp rem).mpr ⟨hm2, hr, hc⟩

theorem memAssignModalCandidates (config : Config) (sched : JsSched) (d : Date)
    (hol : Bool) :
    ∀ (hs : List String) (hosp : String) (rem : Int),
      ((hosp, rem) ∈ assignModalCandidates config sched d hol hs) ↔
        (hosp ∈ hs ∧ ¬hosp = "" ∧ rem = assignModalRemaining config sched hosp d hol ∧
          assignModalRemaining config sched hosp d hol > 0) := by
  intro hs
  induction hs with
  | nil => intro hosp rem; simp [assignModalCandidates]
  | cons h0 rest ih =>
    intro hosp rem
    simp only [assignModalCandidates]
    by_cases h0e : h0 = ""
    · rw [if_pos h0e]
      constructor
      · intro hmem
        obtain ⟨hm, hne, hr, hc⟩ := (ih hosp rem).mp hmem
        exact ⟨List.mem_cons_of_mem _ hm, hne, hr, hc⟩
      · rintro ⟨hm, hne, hr, hc⟩
        rcases List.mem_cons.mp hm with rfl | hm2
        · exact absurd h0e hne
        · exact (ih hosp rem).mpr ⟨hm2, hne, hr, hc⟩
    · rw [if_neg h0e]
      by_cases hrem : assignModalRemaining config sched h0 d hol > 0
      · rw [if_pos hrem]
        constructor
        · intro hmem
          rcases List.mem_cons.mp hmem with heq | hmem2
          · injection heq with e1 e2
            subst e1
            subst e2
            exact ⟨List.mem_cons_self _ _, h0e, rfl, hrem⟩
          · obtain ⟨hm, hne, hr, hc⟩ := (ih hosp rem).mp hmem2
            exact ⟨List.mem_cons_of_mem _ hm, hne, hr, hc⟩
        · rintro ⟨hm, hne, hr, hc⟩
          rcases List.mem_cons.mp hm with rfl | hm2
          · subst hr
            exact List.mem_cons_self _ _
          · exact List.mem_cons_of_mem _ ((ih hosp rem).mpr ⟨hm2, hne, hr, hc⟩)
      · rw [if_neg hrem]
        constructor
        · intro hmem
          obtain ⟨hm, hne, hr, hc⟩ := (ih hosp rem).mp hmem
          exact ⟨List.mem_cons_of_mem _ hm, hne, hr, hc⟩
        · rintro ⟨hm, hne, hr, hc⟩
          rcases List.mem_cons.mp hm with rfl | hm2
          · exact absurd hc hrem
          · exact (ih hosp rem).mpr ⟨hm2, hne, hr, hc⟩

theorem calendarCandidatesEqNil (config : Config) (sched : JsSched) (d : Date)
    (resident : String) (hol : Bool) :
    ∀ (hs : List String),
      calendarCandidates config sched d resident hol hs = [] ↔
        ∀ hosp ∈ hs, ¬(calDropRemaining config sched hosp d hol > 0 ∨
          (jsAssigned sched d.iso hosp).contains resident = true) := by
  intro hs
  induction hs with
  | nil => simp [calendarCandidates]
  | cons h0 rest ih =>
    simp only [calendarCandidates]
    by_cases hcond : calDropRemaining config sched h0 d hol > 0 ∨
        (jsAssigned sched d.iso h0).contains resident = true
    · rw [if_pos hcond]
      simp only [List.forall_mem_cons]
      constructor
      · intro h
        exact absurd h (List.cons_ne_nil _ _)
      · rintro ⟨hn, _⟩
        exact absurd hcond hn
    · rw [if_neg hcond]
      rw [ih, List.forall_mem_cons]
      constructor
      · intro h
        exact ⟨hcond, h⟩
      · rintro ⟨_, h⟩
        exact h

/-- Claim C1: the claim says a tabular-grid drop on a valid single
    (date, hospital) cell immediately issues the move request.  The code
    contradicts it: at a drop whose target is not the source cell, not an
    NG date, and has a free slot, the handler's read of the undeclared
    variable `sched` (app.js 701) raises a caught ReferenceError, so no
    move request is issued at all. -/
theorem c1_tabular_drop_issues_no_move :
    tabularDrop metaC1 "2026-03-03" "B" [] cacheC1 []
      = ⟨cacheC1, [], [], TabDropOutcome.jsErrorCaught "sched is not defined"⟩
    ∧ ¬(metaC1.from_date = "2026-03-03" ∧ metaC1.from_hospital = "B")
    ∧ ([] : List String).contains "2026-03-03" = false
    ∧ capacityOf cfgC1 "B" ⟨2026, 3, 3⟩ = 1
    ∧ jsAssigned schedC1 "2026-03-03" "B" = [] := by
  decide

/-- Claim C2 (amended): the candidate set of the date-only drop
    disambiguation includes a hospital exactly when `remaining > 0` or the
    dragged resident already occupies the slot, while the assign dialog's
    candidate list includes a hospital exactly when its name is non-empty
    and `remaining > 0` — occupancy does not readmit a full hospital
    there. -/
theorem c2_candidate_sets :
    ∀ (config : Config) (sched : JsSched) (d : Date) (resident : String)
      (hol : Bool) (hs : List String) (hosp : String) (rem : Int),
      (((hosp, rem) ∈ calendarCandidates config sched d resident hol hs) ↔
        (hosp ∈ hs ∧ rem = calDropRemaining config sched hosp d hol ∧
          (calDropRemaining config sched hosp d hol > 0 ∨
            (jsAssigned sched d.iso hosp).contains resident = true)))
      ∧ (((hosp, rem) ∈ assignModalCandidates config sched d hol hs) ↔
        (hosp ∈ hs ∧ ¬hosp = "" ∧ rem = assignModalRemaining config sched hosp d hol ∧
          assignModalRemaining config sched hosp d hol > 0)) := by
  intro config sched d resident hol hs hosp rem
  exact ⟨memCalendarCandidates config sched d resident hol hs hosp rem,
         memAssignModalCandidates config sched d hol hs hosp rem⟩

/-- Claim C2, counterexample: resident r occupies (2026-03-02, A) and A's
    remaining is 0, yet the assign dialog's candidate list is empty — the
    occupied hospital is not offered — while the calendar drop
    disambiguation does include it. -/
theorem c2_counterexample :
    (jsAssigned schedC2 "2026-03-02" "A").contains "r" = true
    ∧ assignModalRemaining cfgC2 schedC2 "A" dateC2 false = 0
    ∧ assignModalCandidates cfgC2 schedC2 dateC2 false (hospitalsOf cfgC2 schedC2) = []
    ∧ calendarCandidates cfgC2 schedC2 dateC2 "r" false (hospitalsOf cfgC2 schedC2)
        = [("A", 0)] := by
  decide

/-- Claim C2, witness: the occupied zero-remaining hospital is a calendar
    drop candidate. -/
theorem c2_witness :
    ("A", (0 : Int)) ∈ calendarCandidates cfgC2 schedC2 dateC2 "r" false ["A"] :=
  (c2_candidate_sets cfgC2 schedC2 dateC2 "r" false ["A"] "A" 0).1.mpr (by decide)

/-- Claim C3 (amended): the assign-dialog and calendar-drop sites compute
    `remaining = capacityOf + (4 if university hospital and weekend-or-holiday)
    - assignedCount`, but the preview-table highlight applies the bonus only
    on weekends: it equals the same formula with the holiday flag forced to
    false. -/
theorem c3_remaining_formula :
    ∀ (config : Config) (sched : JsSched) (hosp : String) (d : Date) (hol : Bool),
      assignModalRemaining config sched hosp d hol = specRemaining config sched hosp d hol
      ∧ calDropRemaining config sched hosp d hol = specRemaining config sched hosp d hol
      ∧ highlightRemaining config sched hosp d = specRemaining config sched hosp d false := by
  intro config sched hosp d hol
  refine ⟨?_, ?_, ?_⟩
  · simp only [assignModalRemaining, specRemaining]
    by_cases hC : hosp = universityHospital ∧ (isWeekend d || hol) = true
    · simp only [if_pos hC]
    · simp only [if_neg hC]
      omega
  · simp only [calDropRemaining, specRemaining]
    by_cases hC : hosp = universityHospital ∧ (isWeekend d || hol) = true
    · simp only [if_pos hC]
    · simp only [if_neg hC]
      omega
  · simp only [highlightRemaining, specRemaining]
    by_cases hC : hosp = universityHospital ∧ (isWeekend d || false) = true
    · simp only [if_pos hC]
    · simp only [if_neg hC]
      omega

/-- Claim C3, witness: at the dialog site the formula holds with the
    holiday flag honoured. -/
theorem c3_witness :
    assignModalRemaining cfgC3 emptyJs universityHospital dateC3 true
      = specRemaining cfgC3 emptyJs universityHospital dateC3 true :=
  (c3_remaining_formula cfgC3 emptyJs universityHospital dateC3 true).1

/-- Claim C3, counterexample: on 2026-01-01 — a Thursday, taken as a
    holiday — the university hospital's highlight remaining is 1, not the
    claimed capacity-plus-4 value 5: the highlight ignores the holiday
    bonus. -/
theorem c3_counterexample :
    highlightRemaining cfgC3 emptyJs universityHospital dateC3
        ≠ specRemaining cfgC3 emptyJs universityHospital dateC3 true
    ∧ isWeekend dateC3 = false
    ∧ highlightRemaining cfgC3 emptyJs universityHospital dateC3 = 1
    ∧ specRemaining cfgC3 emptyJs universityHospital dateC3 true = 5 := by
  decide

/-- Claim C4: `capacityOf` returns the date-specific entry when present,
    else the entry under the Monday-first weekday key `(getDay() + 6) % 7`,
    else 0; and a hospital with weekday key "1" set to 2 has capacity 2 on
    the Tuesday 2026-10-13 (native day 2). -/
theorem c4_capacityOf_lookup :
    ∀ (config : Config) (hosp : String) (d : Date),
      (∀ v : Int, List.lookup d.iso (cfgOf config hosp) = some v →
        capacityOf config hosp d = v)
      ∧ (List.lookup d.iso (cfgOf config hosp) = none →
          ∀ v : Int,
            List.lookup (toString ((jsDay d + 6) % 7)) (cfgOf config hosp) = some v →
              capacityOf config hosp d = v)
      ∧ (List.lookup d.iso (cfgOf config hosp) = none →
          List.lookup (toString ((jsDay d + 6) % 7)) (cfgOf config hosp) = none →
            capacityOf config hosp d = 0)
      ∧ capacityOf [("General", [("1", 2)])] "General" ⟨2026, 10, 13⟩ = 2
      ∧ jsDay ⟨2026, 10, 13⟩ = 2 := by
  intro config hosp d
  refine ⟨?_, ?_, ?_, by decide, by decide⟩
  · intro v hv
    simp [capacityOf, hv]
  · intro h1 v hv
    simp [capacityOf, h1, hv]
  · intro h1 h2
    simp [capacityOf, h1, h2]

/-- Claim C4, witness: a date-specific entry takes precedence. -/
theorem c4_witness :
    capacityOf [("H", [("2026-10-13", 3)])] "H" ⟨2026, 10, 13⟩ = 3 :=
  (c4_capacityOf_lookup [("H", [("2026-10-13", 3)])] "H" ⟨2026, 10, 13⟩).1 3 (by decide)

/-- Claim C5: the assign handler fails locally with the cap error, issuing
    no request, exactly when
    `currentTotal - (alreadyOnThisDate ? 1 : 0) + 1 > maxAssignments`. -/
theorem c5_local_cap_check :
    ∀ (backend : Backend) (field : Option String) (cache : Cache) (log : List Change)
      (month dateIso resident hosp : String),
      ((assignClick backend field cache log month dateIso resident hosp).outcome
          = Outcome.capExceeded
        ∧ (assignClick backend field cache log month dateIso resident hosp).reqs = [])
      ↔ currentTotal cache month resident
          - (if occupiesOnDate ((List.lookup month cache).getD emptyJs) dateIso resident
              then 1 else 0) + 1
          > uiMaxAssignments field := by
  intro backend field cache log month dateIso resident hosp
  by_cases hc : currentTotal cache month resident
      - (if occupiesOnDate ((List.lookup month cache).getD emptyJs) dateIso resident
          then 1 else 0) + 1
      > uiMaxAssignments field
  · simp [assignClick, hc]
  · simp only [assignClick, if_neg hc]
    cases hb : backend (Request.assignReq month dateIso resident hosp (uiMaxAssignments field)) <;>
      simp [hb, hc]

/-- Claim C5, witness: with a cap of 2, a resident already counted twice in
    the month and absent from the target date fails locally with no
    request. -/
theorem c5_witness :
    (assignClick backendOkEmpty (some "2") cacheC5 [] "2026-03" "2026-03-05" "r" "A").outcome
        = Outcome.capExceeded
    ∧ (assignClick backendOkEmpty (some "2") cacheC5 [] "2026-03" "2026-03-05" "r" "A").reqs
        = [] :=
  (c5_local_cap_check backendOkEmpty (some "2") cacheC5 [] "2026-03" "2026-03-05" "r" "A").mpr
    (by decide)

/-- Claim C6 (amended): a drop is rejected locally, with no move request and
    the change log untouched, when the target date is NG, when — in the
    calendar handler — the source date equals the target date regardless of
    hospital, or when no hospital at the target date has remaining > 0 or
    already holds the resident; calendar drops meeting none of these
    conditions reach the hospital-choice modal.  The tabular handler issues
    no request in any case: past its same-cell and NG checks it fails with
    the caught `sched` ReferenceError. -/
theorem c6_local_move_rejection :
    ∀ (bf : String → Option JsSched) (config : Config) (cache : Cache)
      (log : List Change) (meta : DragMeta) (target : Date)
      (ng : List String) (hol : Bool),
      (calendarDrop bf config cache log meta target ng hol).log = log
      ∧ (ng.contains target.iso = true →
          calendarDrop bf config cache log meta target ng hol
            = ⟨cache, log, CalDropOutcome.ngRejected⟩)
      ∧ (ng.contains target.iso = false → meta.from_date = target.iso →
          calendarDrop bf config cache log meta target ng hol
            = ⟨cache, log, CalDropOutcome.sameDateRejected⟩)
      ∧ (ng.contains target.iso = false → meta.from_date ≠ target.iso →
          ((∀ hosp ∈ hospitalsOf config (calDropSched bf cache target.monthKey),
              ¬(calDropRemaining config (calDropSched bf cache target.monthKey) hosp target hol > 0
                ∨ (jsAssigned (calDropSched bf cache target.monthKey) target.iso hosp).contains
                    meta.resident = true)) →
            (calendarDrop bf config cache log meta target ng hol).result
              = CalDropOutcome.noSlots)
          ∧ ((∃ hosp ∈ hospitalsOf config (calDropSched bf cache target.monthKey),
              (calDropRemaining config (calDropSched bf cache target.monthKey) hosp target hol > 0
                ∨ (jsAssigned (calDropSched bf cache target.monthKey) target.iso hosp).contains
                    meta.resident = true)) →
            ∃ cs, (calendarDrop bf config cache log meta target ng hol).result
              = CalDropOutcome.showModal cs))
      ∧ (∀ (m2 : DragMeta) (dd hh : String) (ng2 : List String) (cache2 : Cache)
          (log2 : List Change),
          (tabularDrop m2 dd hh ng2 cache2 log2).cache = cache2
          ∧ (tabularDrop m2 dd hh ng2 cache2 log2).log = log2
          ∧ (tabularDrop m2 dd hh ng2 cache2 log2).reqs = []
          ∧ (¬(m2.from_date = dd ∧ m2.from_hospital = hh) → ng2.contains dd = false →
              (tabularDrop m2 dd hh ng2 cache2 log2).result
                = TabDropOutcome.jsErrorCaught "sched is not defined")) := by
  intro bf config cache log meta target ng hol
  refine ⟨?_, ?_, ?_, ?_, ?_⟩
  · by_cases h1 : ng.contains target.iso = true
    · have hm : target.iso ∈ ng := by simpa using h1
      simp [calendarDrop, hm]
    · by_cases h2 : meta.from_date = target.iso
      · simp only [calendarDrop, if_neg h1, if_pos h2]
      · simp only [calendarDrop, if_neg h1, if_neg h2]
        split <;> rfl
  · intro h1
    have hm : target.iso ∈ ng := by simpa using h1
    simp [calendarDrop, hm]
  · intro h1 h2
    have h1' : ¬(ng.contains target.iso = true) := by
      rw [h1]
      exact Bool.false_ne_true
    simp only [calendarDrop, if_neg h1', if_pos h2]
  · intro h1 h2
    have h1' : ¬(ng.contains target.iso = true) := by
      rw [h1]
      exact Bool.false_ne_true
    constructor
    · intro hall
      have hnil := (calendarCandidatesEqNil config (calDropSched bf cache target.monthKey)
        target meta.resident hol
        (hospitalsOf config (calDropSched bf cache target.monthKey))).mpr hall
      simp only [calDropSched] at hnil
      simp only [calendarDrop, if_neg h1', if_neg h2, if_pos hnil]
    · rintro ⟨hosp, hm, hc⟩
      have hne : calendarCandidates config
          ((List.lookup target.monthKey (fetchSchedule bf cache target.monthKey).1).getD emptyJs)
          target meta.resident hol
          (hospitalsOf config
            ((List.lookup target.monthKey (fetchSchedule bf cache target.monthKey).1).getD emptyJs))
          ≠ [] := by
        intro hnil
        have hforall := (calendarCandidatesEqNil config
          ((List.lookup target.monthKey (fetchSchedule bf cache target.monthKey).1).getD emptyJs)
          target meta.resident hol
          (hospitalsOf config
            ((List.lookup target.monthKey (fetchSchedule bf cache target.monthKey).1).getD
              emptyJs))).mp hnil
        simp only [calDropSched] at hm hc
        exact hforall hosp hm hc
      simp only [calendarDrop, if_neg h1', if_neg h2, if_neg hne]
      exact ⟨_, rfl⟩
  · intro m2 dd hh ng2 cache2 log2
    refine ⟨?_, ?_, ?_, ?_⟩
    · simp only [tabularDrop]
      split
      · rfl
      · split <;> rfl
    · simp only [tabularDrop]
      split
      · rfl
      · split <;> rfl
    · simp only [tabularDrop]
      split
      · rfl
      · split <;> rfl
    · intro hns hng
      have hng' : ¬(ng2.contains dd = true) := by
        rw [hng]
        exact Bool.false_ne_true
      simp only [tabularDrop, if_neg hns, if_neg hng']

/-- Claim C6, counterexample: a calendar drop of resident r from
    (2026-03-02, A) onto the date 2026-03-02 is rejected as a same-date
    move even though hospital B — a free eligible destination on that
    date — differs from the source, so none of the claimed rejection
    conditions holds for the (2026-03-02, B) target. -/
theorem c6_counterexample :
    (calendarDrop fetchNone cfgC6 cacheC6 [] metaC6 dateC6 [] false).result
        = CalDropOutcome.sameDateRejected
    ∧ ([] : List String).contains dateC6.iso = false
    ∧ ¬(metaC6.from_date = dateC6.iso ∧ metaC6.from_hospital = "B")
    ∧ calDropRemaining cfgC6 schedC6 "B" dateC6 false = 1
    ∧ "B" ∈ hospitalsOf cfgC6 schedC6 := by
  decide

/-- Claim C6, witness: an NG-date drop is rejected with cache and log
    untouched. -/
theorem c6_witness :
    calendarDrop fetchNone cfgC6 cacheC6 [] metaC6 ⟨2026, 3, 5⟩ ["2026-03-05"] false
      = ⟨cacheC6, [], CalDropOutcome.ngRejected⟩ :=
  (c6_local_move_rejection fetchNone cfgC6 cacheC6 [] metaC6 ⟨2026, 3, 5⟩
    ["2026-03-05"] false).2.1 (by decide)

theorem replayAssignsReqsOk (backend : Backend) (u : Int) (m d r : String) :
    ∀ (hs : List String) (cache : Cache),
      (∀ h ∈ hs, backend (Request.assignReq m d r h u) ≠ none) →
      (replayAssigns backend u m d r hs cache).reqs
          = hs.map (fun h => Request.assignReq m d r h u)
      ∧ (replayAssigns backend u m d r hs cache).ok = true := by
  intro hs
  induction hs with
  | nil => intro cache _; exact ⟨rfl, rfl⟩
  | cons h0 rest ih =>
    intro cache hall
    have h0ne := hall h0 (List.mem_cons_self _ _)
    cases hb : backend (Request.assignReq m d r h0 u) with
    | none => exact absurd hb h0ne
    | some res =>
      have hrest : ∀ h ∈ rest, backend (Request.assignReq m d r h u) ≠ none :=
        fun h hm => hall h (List.mem_cons_of_mem _ hm)
      have hr := ih (applyResult cache m res) hrest
      constructor
      · simp [replayAssigns, hb, hr.1]
      · simp [replayAssigns, hb, hr.2]

theorem replayAssignsReqsFail (backend : Backend) (u : Int) (m d r bad : String)
    (hbad : backend (Request.assignReq m d r bad u) = none) :
    ∀ (pre post : List String) (cache : Cache),
      (∀ h ∈ pre, backend (Request.assignReq m d r h u) ≠ none) →
      (replayAssigns backend u m d r (pre ++ bad :: post) cache).reqs
          = pre.map (fun h => Request.assignReq m d r h u) ++ [Request.assignReq m d r bad u]
      ∧ (replayAssigns backend u m d r (pre ++ bad :: post) cache).ok = false := by
  intro pre
  induction pre with
  | nil =>
    intro post cache _
    constructor
    · simp [replayAssigns, hbad]
    · simp [replayAssigns, hbad]
  | cons h0 rest ih =>
    intro post cache hall
    have h0ne := hall h0 (List.mem_cons_self _ _)
    cases hb : backend (Request.assignReq m d r h0 u) with
    | none => exact absurd hb h0ne
    | some res =>
      have hrest : ∀ h ∈ rest, backend (Request.assignReq m d r h u) ≠ none :=
        fun h hm => hall h (List.mem_cons_of_mem _ hm)
      have hr := ih post (applyResult cache m res) hrest
      constructor
      · simp [replayAssigns, hb, hr.1]
      · simp [replayAssigns, hb, hr.2]

/-- Claim C7: undo pops the most recent change and issues its inverse — one
    unassign for an assign record; one assign per captured hospital, in
    order, stopping at the first failure, for an unassign record; a single
    move with from/to swapped for a move record — and the popped entry is
    never re-pushed, failures included. -/
theorem c7_undo_inverse :
    ∀ (backend : Backend) (field : Option String) (cache : Cache)
      (l : List Change) (c : Change),
      (undoLastChange backend field cache (l ++ [c])).log = l
      ∧ (∀ m d r h, c = Change.assignCh m d r h →
          (undoLastChange backend field cache (l ++ [c])).reqs = [Request.unassignReq m d r])
      ∧ (∀ m r fd fh td th, c = Change.moveCh m r fd fh td th →
          (undoLastChange backend field cache (l ++ [c])).reqs
            = [Request.moveReq m r td th fd fh (uiMaxUndo field)])
      ∧ (∀ m d r hs, c = Change.unassignCh m d r hs →
          ((∀ h ∈ hs, backend (Request.assignReq m d r h (uiMaxUndo field)) ≠ none) →
            (undoLastChange backend field cache (l ++ [c])).reqs
              = hs.map (fun h => Request.assignReq m d r h (uiMaxUndo field))
            ∧ (undoLastChange backend field cache (l ++ [c])).result
              = UndoOutcome.undoDone)
          ∧ (∀ pre bad post, hs = pre ++ bad :: post →
              (∀ h ∈ pre, backend (Request.assignReq m d r h (uiMaxUndo field)) ≠ none) →
              backend (Request.assignReq m d r bad (uiMaxUndo field)) = none →
              (undoLastChange backend field cache (l ++ [c])).reqs
                = pre.map (fun h => Request.assignReq m d r h (uiMaxUndo field))
                  ++ [Request.assignReq m d r bad (uiMaxUndo field)]
              ∧ (undoLastChange backend field cache (l ++ [c])).result
                = UndoOutcome.undoFailed)) := by
  intro backend field cache l c
  have hlast : (l ++ [c]).getLast? = some c := List.getLast?_concat l
  have hdrop : (l ++ [c]).dropLast = l := List.dropLast_concat
  refine ⟨?_, ?_, ?_, ?_⟩
  · cases c with
    | assignCh m d r h =>
      cases hb : backend (Request.unassignReq m d r) <;>
        simp [undoLastChange, hlast, hdrop, hb]
    | unassignCh m d r hs =>
      simp [undoLastChange, hlast, hdrop]
    | moveCh m r fd fh td th =>
      cases hb : backend (Request.moveReq m r td th fd fh (uiMaxUndo field)) <;>
        simp [undoLastChange, hlast, hdrop, hb]
  · intro m d r h hc
    subst hc
    cases hb : backend (Request.unassignReq m d r) <;>
      simp [undoLastChange, hlast, hdrop, hb]
  · intro m r fd fh td th hc
    subst hc
    cases hb : backend (Request.moveReq m r td th fd fh (uiMaxUndo field)) <;>
      simp [undoLastChange, hlast, hdrop, hb]
  · intro m d r hs hc
    subst hc
    constructor
    · intro hall
      have hr := replayAssignsReqsOk backend (uiMaxUndo field) m d r hs cache hall
      constructor
      · simp [undoLastChange, hlast, hdrop, hr.1]
      · simp [undoLastChange, hlast, hdrop, hr.2]
    · intro pre bad post hhs hall hbad
      subst hhs
      have hr := replayAssignsReqsFail backend (uiMaxUndo field) m d r bad hbad pre post cache hall
      constructor
      · simp [undoLastChange, hlast, hdrop, hr.1]
      · simp [undoLastChange, hlast, hdrop, hr.2]

/-- Claim C7, witness: undoing a logged assign pops it and issues the
    matching unassign. -/
theorem c7_witness :
    (undoLastChange backendOkEmpty none cacheC5
        [Change.assignCh "2026-03" "2026-03-02" "r" "A"]).log = []
    ∧ (undoLastChange backendOkEmpty none cacheC5
        [Change.assignCh "2026-03" "2026-03-02" "r" "A"]).reqs
        = [Request.unassignReq "2026-03" "2026-03-02" "r"] :=
  have h := c7_undo_inverse backendOkEmpty none cacheC5 []
    (Change.assignCh "2026-03" "2026-03-02" "r" "A")
  ⟨h.1, h.2.1 "2026-03" "2026-03-02" "r" "A" rfl⟩

/-- Claim C8: each mutation handler pushes its change record only after an
    OK backend response, and a local validation failure or a backend
    rejection leaves the change log and the schedule cache exactly as they
    were. -/
theorem c8_push_confirmed_only :
    ∀ (backend : Backend) (field : Option String) (cache : Cache) (log : List Change)
      (month dateIso resident hosp fd fh td th : String),
      ((assignClick backend field cache log month dateIso resident hosp).outcome
          ≠ Outcome.success →
        (assignClick backend field cache log month dateIso resident hosp).log = log
        ∧ (assignClick backend field cache log month dateIso resident hosp).cache = cache)
      ∧ ((assignClick backend field cache log month dateIso resident hosp).outcome
          = Outcome.success →
        backend (Request.assignReq month dateIso resident hosp (uiMaxAssignments field)) ≠ none
        ∧ (assignClick backend field cache log month dateIso resident hosp).log
            = log ++ [Change.assignCh month dateIso resident hosp])
      ∧ ((unassignDeleteClick backend cache log month dateIso resident).outcome
          ≠ Outcome.success →
        (unassignDeleteClick backend cache log month dateIso resident).log = log
        ∧ (unassignDeleteClick backend cache log month dateIso resident).cache = cache)
      ∧ ((unassignDeleteClick backend cache log month dateIso resident).outcome
          = Outcome.success →
        backend (Request.unassignReq month dateIso resident) ≠ none
        ∧ (unassignDeleteClick backend cache log month dateIso resident).log
            = log ++ [Change.unassignCh month dateIso resident
                (assignedHospitalsOf ((List.lookup month cache).getD emptyJs) dateIso resident)])
      ∧ ((calendarMoveClick backend field cache log month resident fd fh td th).outcome
          ≠ Outcome.success →
        (calendarMoveClick backend field cache log month resident fd fh td th).log = log
        ∧ (calendarMoveClick backend field cache log month resident fd fh td th).cache = cache)
      ∧ ((calendarMoveClick backend field cache log month resident fd fh td th).outcome
          = Outcome.success →
        backend (Request.moveReq month resident fd fh td th (uiMaxAssignments field)) ≠ none
        ∧ (calendarMoveClick backend field cache log month resident fd fh td th).log
            = log ++ [Change.moveCh month resident fd fh td th]) := by
  intro backend field cache log month dateIso resident hosp fd fh td th
  refine ⟨?_, ?_, ?_, ?_, ?_, ?_⟩
  · intro hne
    by_cases hcap : currentTotal cache month resident
        - (if occupiesOnDate ((List.lookup month cache).getD emptyJs) dateIso resident
            then 1 else 0) + 1
        > uiMaxAssignments field
    · simp [assignClick, hcap]
    · cases hb : backend (Request.assignReq month dateIso resident hosp (uiMaxAssignments field)) with
      | none => simp [assignClick, hcap, hb]
      | some res =>
        exfalso
        apply hne
        simp [assignClick, hcap, hb]
  · intro hs
    by_cases hcap : currentTotal cache month resident
        - (if occupiesOnDate ((List.lookup month cache).getD emptyJs) dateIso resident
            then 1 else 0) + 1
        > uiMaxAssignments field
    · simp [assignClick, hcap] at hs
    · cases hb : backend (Request.assignReq month dateIso resident hosp (uiMaxAssignments field)) with
      | none => simp [assignClick, hcap, hb] at hs
      | some res =>
        constructor
        · simp
        · simp [assignClick, hcap, hb]
  · intro hne
    cases hb : backend (Request.unassignReq month dateIso resident) with
    | none => simp [unassignDeleteClick, hb]
    | some res =>
      exfalso
      apply hne
      simp [unassignDeleteClick, hb]
  · intro hs
    cases hb : backend (Request.unassignReq month dateIso resident) with
    | none => simp [unassignDeleteClick, hb] at hs
    | some res =>
      constructor
      · simp
      · simp [unassignDeleteClick, hb]
  · intro hne
    cases hb : backend (Request.moveReq month resident fd fh td th (uiMaxAssignments field)) with
    | none => simp [calendarMoveClick, hb]
    | some res =>
      exfalso
      apply hne
      simp [calendarMoveClick, hb]
  · intro hs
    cases hb : backend (Request.moveReq month resident fd fh td th (uiMaxAssignments field)) with
    | none => simp [calendarMoveClick, hb] at hs
    | some res =>
      constructor
      · simp
      · simp [calendarMoveClick, hb]

/-- Claim C8, witness: a backend rejection leaves the log and the cache
    untouched. -/
theorem c8_witness :
    (assignClick backendNone none [] [] "2026-03" "2026-03-02" "r" "A").log = []
    ∧ (assignClick backendNone none [] [] "2026-03" "2026-03-02" "r" "A").cache = [] :=
  (c8_push_confirmed_only backendNone none [] [] "2026-03" "2026-03-02" "r" "A"
    "x" "y" "z" "w").1 (by decide)

/-- Claim C9: a failed month fetch caches the error sentinel; any lookup of
    a cached month — the sentinel included — returns it without another
    fetch; and a successful mutation response overwrites the month's cached
    entry. -/
theorem c9_error_sentinel_cached :
    (∀ (bf : String → Option JsSched) (cache : Cache) (month : String),
      List.lookup month cache = none → bf month = none →
        (fetchSchedule bf cache month).2.1 = errorSentinel
        ∧ List.lookup month (fetchSchedule bf cache month).1 = some errorSentinel
        ∧ (fetchSchedule bf cache month).2.2 = true)
    ∧ (∀ (bf : String → Option JsSched) (cache : Cache) (month : String) (e : JsSched),
        List.lookup month cache = some e →
          fetchSchedule bf cache month = (cache, e, false))
    ∧ (∀ (backend : Backend) (field : Option String) (cache : Cache) (log : List Change)
        (month resident fd fh td th : String) (s : JsSched),
        backend (Request.moveReq month resident fd fh td th (uiMaxAssignments field))
            = some (some s) →
          List.lookup month
              (calendarMoveClick backend field cache log month resident fd fh td th).cache
            = some s) := by
  refine ⟨?_, ?_, ?_⟩
  · intro bf cache month h1 h2
    refine ⟨?_, ?_, ?_⟩ <;> simp [fetchSchedule, h1, h2, cacheSet, List.lookup]
  · intro bf cache month e h
    simp [fetchSchedule, h]
  · intro backend field cache log month resident fd fh td th s hb
    simp [calendarMoveClick, hb, applyResult, cacheSet, List.lookup]

/-- Claim C9, witness: a failed fetch of an uncached month caches and
    returns the error sentinel. -/
theorem c9_witness :
    (fetchSchedule fetchNone [] "2026-03").2.1 = errorSentinel
    ∧ List.lookup "2026-03" (fetchSchedule fetchNone [] "2026-03").1 = some errorSentinel
    ∧ (fetchSchedule fetchNone [] "2026-03").2.2 = true :=
  c9_error_sentinel_cached.1 fetchNone [] "2026-03" (by decide) (by decide)

theorem assignClickReqsShape (backend : Backend) (field : Option String) (cache : Cache)
    (log : List Change) (month dateIso resident hosp : String) :
    (assignClick backend field cache log month dateIso resident hosp).reqs = []
    ∨ (assignClick backend field cache log month dateIso resident hosp).reqs
        = [Request.assignReq month dateIso resident hosp (uiMaxAssignments field)] := by
  by_cases hcap : currentTotal cache month resident
      - (if occupiesOnDate ((List.lookup month cache).getD emptyJs) dateIso resident
          then 1 else 0) + 1
      > uiMaxAssignments field
  · exact Or.inl (by simp [assignClick, hcap])
  · cases hb : backend (Request.assignReq month dateIso resident hosp (uiMaxAssignments field)) with
    | none => exact Or.inr (by simp [assignClick, hcap, hb])
    | some r => exact Or.inr (by simp [assignClick, hcap, hb])

theorem calendarMoveClickReqsShape (backend : Backend) (field : Option String) (cache : Cache)
    (log : List Change) (month resident fd fh td th : String) :
    (calendarMoveClick backend field cache log month resident fd fh td th).reqs
      = [Request.moveReq month resident fd fh td th (uiMaxAssignments field)] := by
  cases hb : backend (Request.moveReq month resident fd fh td th (uiMaxAssignments field)) <;>
    simp [calendarMoveClick, hb]

/-- Claim C10: whenever the max-assignments field is absent, empty, or
    parses as 0, the value used by the local cap check and carried by every
    request the assign dialog or the calendar move handler issues is 2. -/
theorem c10_max_assignments_default :
    ∀ (field : Option String),
      (field = none ∨ field = some "" ∨ field = some "0") →
      uiMaxAssignments field = 2
      ∧ (∀ (backend : Backend) (cache : Cache) (log : List Change)
          (month dateIso resident hosp : String) (q : Request),
          q ∈ (assignClick backend field cache log month dateIso resident hosp).reqs →
          q = Request.assignReq month dateIso resident hosp 2)
      ∧ (∀ (backend : Backend) (cache : Cache) (log : List Change)
          (month resident fd fh td th : String) (q : Request),
          q ∈ (calendarMoveClick backend field cache log month resident fd fh td th).reqs →
          q = Request.moveReq month resident fd fh td th 2) := by
  intro field hf
  have h2 : uiMaxAssignments field = 2 := by
    rcases hf with rfl | rfl | rfl <;> decide
  refine ⟨h2, ?_, ?_⟩
  · intro backend cache log month dateIso resident hosp q hq
    rcases assignClickReqsShape backend field cache log month dateIso resident hosp with h | h
    · rw [h] at hq
      exact absurd hq (List.not_mem_nil q)
    · rw [h, h2] at hq
      exact List.mem_singleton.mp hq
  · intro backend cache log month resident fd fh td th q hq
    rw [calendarMoveClickReqsShape backend field cache log month resident fd fh td th, h2] at hq
    exact List.mem_singleton.mp hq

/-- Claim C10, witness: a field reading "0" is replaced by 2. -/
theorem c10_witness : uiMaxAssignments (some "0") = 2 :=
  (c10_max_assignments_default (some "0") (Or.inr (Or.inr rfl))).1

end ShiftORTools
